import Mathlib

/-!
A shallow embedding of the go-hpb block-synchronisation core (package
`synctrl`, file `src/unnamed/part_000`) and of the p2p peer bookkeeping
(package `p2p`, file `src/unnamed/part_001`), together with theorems that
settle the specification's claims about them.

Machine integers are modelled as `Nat` (none of the modelled operations
overflow on the inputs the claims concern), hashes as opaque `Nat` values,
peer identifiers as `String`, and the Go `set.Set` backing the known-hash
caches as a duplicate-free `List`.
-/

namespace GoHpb

/-! ## Tunable constants

`maxKnownTxs` and `maxKnownBlocks` are declared in `src/unnamed/part_001`
(lines 43-44).  The remaining constants are referenced by
`src/unnamed/part_000` but declared in a file of the repository that is not
part of the sources at hand; their values are the ones the specification
fixes in its "Tunable constants" table (durations in nanoseconds, the unit
of Go's `time.Duration`). -/

/-- Maximum transaction hashes kept in a peer's known list (part_001, line 43). -/
def maxKnownTxs : Nat := 1000000

/-- Maximum block hashes kept in a peer's known list (part_001, line 44). -/
def maxKnownBlocks : Nat := 100000

/-- Modelled from the spec: `MaxHeaderFetch = 192`. -/
def MaxHeaderFetch : Nat := 192

/-- Modelled from the spec: `fs_pivot_interval = 64`. -/
def fsPivotInterval : Nat := 64

/-- Modelled from the spec: `fs_min_full_blocks = 64`. -/
def fsMinFullBlocks : Nat := 64

/-- Modelled from the spec: `fs_header_safety_net = 2048`. -/
def fsHeaderSafetyNet : Nat := 2048

/-- Modelled from the spec: `fs_critical_trials = 10`. -/
def fsCriticalTrials : Nat := 10

/-- Modelled from the spec: `max_headers_process = 2048`. -/
def maxHeadersProcess : Nat := 2048

/-- Modelled from the spec: `qos_confidence_cap = 10`. -/
def qosConfidenceCap : Nat := 10

/-- Modelled from the spec: `rtt_min_confidence = 0.1`, expressed in the
millionths fixed-point scale the code stores confidence in. -/
def rttMinConfidenceMillionths : Nat := 100000

/-- Modelled from the spec: `rtt_max_estimate = 20 s`, in nanoseconds. -/
def rttMaxEstimate : Nat := 20000000000

/-- Modelled from the spec: `ttl_scaling = 3`. -/
def ttlScaling : Nat := 3

/-- Modelled from the spec: `ttl_limit = 60 s`, in nanoseconds. -/
def ttlLimit : Nat := 60000000000

/-! ## Data model -/

/-- The three synchronisation modes of the session state machine. -/
inductive SyncMode
  | fullSync
  | fastSync
  | lightSync
deriving DecidableEq, Repr

/-- A block header, reduced to the two fields the synchroniser inspects:
its block number and its hash (an opaque value). -/
structure Header where
  number : Nat
  hash : Nat
deriving DecidableEq, Repr

/-- Peer identifiers are opaque strings. -/
abbrev PeerId := String

/-- Hashes held in the known-block / known-transaction caches. -/
abbrev Hash := Nat

/-- The error taxonomy of the synchroniser, one constructor per `err*`
value used in `src/unnamed/part_000`. -/
inductive SyncError
  | busy
  | unknownPeer
  | badPeer
  | stallingPeer
  | noPeers
  | timeout
  | emptyHeaderSet
  | peersUnavailable
  | invalidAncestor
  | invalidChain
  | cancelBlockFetch
  | cancelHeaderFetch
  | cancelBodyFetch
  | cancelReceiptFetch
  | cancelStateFetch
  | cancelHeaderProcessing
  | cancelContentProcessing
  | noSyncActive
  | staleDelivery
  | proVLowerBase
deriving DecidableEq, Repr

/-! ## start: peer-drop policy (part_000, lines 149-165)

`start` calls `syn` and inspects the returned error: `nil` and `errBusy`
take no action, the eight listed errors report the master peer to the
`dropPeer` callback, and every other error falls to the retry branch. -/

/-- Whether `start` invokes the `dropPeer` callback for the error `syn`
returned (`none` models a `nil` error). Translated from the `switch err`
statement of `start`. -/
def startDropsPeer : Option SyncError → Bool
  | none => false
  | some e =>
    match e with
    | SyncError.timeout => true
    | SyncError.badPeer => true
    | SyncError.stallingPeer => true
    | SyncError.emptyHeaderSet => true
    | SyncError.peersUnavailable => true
    | SyncError.proVLowerBase => true
    | SyncError.invalidAncestor => true
    | SyncError.invalidChain => true
    | _ => false

/-! ## syn: mode degradation (part_000, lines 331-335) -/

/-- The session mode `syn` settles on: the requested mode, degraded from
fast to full when the pivot failure counter has reached
`fsCriticalTrials`. Translated from
`this.mode = mode; if this.mode == FastSync && fsPivotFails >= fsCriticalTrials { this.mode = FullSync }`. -/
def synEffectiveMode (mode : SyncMode) (fsPivotFails : Nat) : SyncMode :=
  if mode = SyncMode.fastSync ∧ fsCriticalTrials ≤ fsPivotFails then
    SyncMode.fullSync
  else
    mode

/-! ## syncWithPeer: pivot selection and origin adjustment
(part_000, lines 384-412) -/

/-- The pivot height `syncWithPeer` computes for the session.
`fsPivotLock` is the pivot header locked in a previous critical section
(if any) and `pivotOffset` the random offset drawn from
`[0, fsPivotInterval)`. Translated from the `switch this.mode` block:
full sync leaves the pivot at 0, light sync pins it to the target height,
and fast sync either reuses the locked pivot's number or derives a fresh
pivot `height - fsMinFullBlocks - pivotOffset` when the height allows. -/
def selectPivot (mode : SyncMode) (fsPivotLock : Option Header)
    (pivotOffset height : Nat) : Nat :=
  match mode with
  | SyncMode.fullSync => 0
  | SyncMode.lightSync => height
  | SyncMode.fastSync =>
    match fsPivotLock with
    | none =>
      if fsMinFullBlocks + pivotOffset < height then
        height - fsMinFullBlocks - pivotOffset
      else
        0
    | some lock => lock.number

/-- The origin rewind applied in fast mode once the pivot is fixed.
Translated from
`if pivot < origin { if pivot > 0 { origin = pivot - 1 } else { origin = 0 } }`. -/
def adjustOrigin (pivot origin : Nat) : Nat :=
  if pivot < origin then
    if 0 < pivot then pivot - 1 else 0
  else
    origin

/-! ## fetchParts: expiry handling (part_000, lines 967-990)

On each update pass the loop asks the scheduler for the peers whose
reservations expired (with per-peer failure counts) and, for every expired
peer still registered, either resets it to zero throughput (keeping it) or
hands it to the `dropPeer` callback, which unregisters it. -/

/-- One update pass over the expire report. `reg` is the set of registered
peers, `zeroed` accumulates the peers set idle with 0 accepted items, and
`expired` is the peer-to-failure-count report. Returns the surviving
registry and the zero-throughput list. Translated from
`for pid, fails := range expire() { if peer := this.peers.Peer(pid); peer != nil { if fails > 2 { setIdle(peer, 0) } else { this.dropPeer(pid) } } }`. -/
def applyExpire (reg zeroed : List PeerId) :
    List (PeerId × Nat) → List PeerId × List PeerId
  | [] => (reg, zeroed)
  | (pid, fails) :: rest =>
    if pid ∈ reg then
      if 2 < fails then
        applyExpire reg (zeroed ++ [pid]) rest
      else
        applyExpire (reg.erase pid) zeroed rest
    else
      applyExpire reg zeroed rest

/-! ## processHeaders: pivot identity cross-check (part_000, lines 1199-1205) -/

/-- Whether the pivot cross-check of `processHeaders` rejects the chunk
with `errInvalidChain`. Translated from
`if this.mode == FastSync && this.fsPivotLock != nil && chunk[0].Number <= pivot && chunk[len(chunk)-1].Number >= pivot { if chunk[int(pivot-chunk[0].Number)].Hash() != this.fsPivotLock.Hash() { return errInvalidChain } }`. -/
def pivotLockCheckFails (mode : SyncMode) (fsPivotLock : Option Header)
    (pivot : Nat) (chunk : List Header) : Bool :=
  match fsPivotLock with
  | none => false
  | some lock =>
    if mode = SyncMode.fastSync
        ∧ (chunk.getD 0 ⟨0, 0⟩).number ≤ pivot
        ∧ pivot ≤ (chunk.getD (chunk.length - 1) ⟨0, 0⟩).number then
      decide ((chunk.getD (pivot - (chunk.getD 0 ⟨0, 0⟩).number) ⟨0, 0⟩).hash ≠ lock.hash)
    else
      false

/-! ## processHeaders: rollback bookkeeping (part_000, lines 1185-1197)

In fast/light mode each chunk is passed to `InsertHeaderChain`.  On
success the yet-unknown headers of the chunk are appended to the rollback
list, which is then truncated to its most recent `fsHeaderSafetyNet`
entries.  On failure the partially applied prefix `chunk[:n]` is appended
(without truncation) and processing stops with `errInvalidChain`. -/

/-- Outcome of `InsertHeaderChain` on a chunk: success, or failure after
`n` headers were already applied. -/
inductive InsertRes
  | ok
  | fail (n : Nat)
deriving DecidableEq, Repr

/-- Truncation of the rollback list to its most recent `fsHeaderSafetyNet`
entries. Translated from
`if len(rollback) > fsHeaderSafetyNet { rollback = append(rollback[:0], rollback[len(rollback)-fsHeaderSafetyNet:]...) }`. -/
def capRollback (rollback : List Header) : List Header :=
  if fsHeaderSafetyNet < rollback.length then
    rollback.drop (rollback.length - fsHeaderSafetyNet)
  else
    rollback

/-- The rollback-list update for one processed chunk. `unknown` is the
sublist of `chunk` the local chain did not yet have. Returns the new list
and whether processing stops with an error. Translated from the
`InsertHeaderChain` call site in `processHeaders`. -/
def rollbackStep (rollback chunk unknown : List Header) :
    InsertRes → List Header × Bool
  | InsertRes.ok => (capRollback (rollback ++ unknown), false)
  | InsertRes.fail n =>
    ((if 0 < n then rollback ++ chunk.take n else rollback), true)

/-- The rollback list after a run of chunk insertions, stopping at the
first failure (whose list the deferred rollback path then reads). -/
def rollbackRun (rollback : List Header) :
    List (List Header × List Header × InsertRes) → List Header
  | [] => rollback
  | (chunk, unknown, res) :: rest =>
    let step := rollbackStep rollback chunk unknown res
    if step.2 then step.1 else rollbackRun step.1 rest

/-! ## findAncestor: linear-probe scan (part_000, lines 573-592)

The reply to the span request is scanned from its topmost entry downward.
Out-of-range entries are skipped; the first locally known header becomes
the candidate ancestor, and if its number exceeds the peer's reported
height while it sits at reply index `limit-1`, the peer lied about its
head and the search fails with `errStallingPeer`. -/

/-- Result of the linear-probe scan: the peer is stalling
(`errStallingPeer`), a candidate ancestor was found, or no reply entry was
known locally. -/
inductive ScanOutcome
  | stalling
  | found (number hash : Nat)
  | nofind
deriving DecidableEq, Repr

/-- The downward scan `for i := len(headers)-1; i >= 0; i--` of
`findAncestor`, with `i + 1` as the argument while index `i` is being
inspected. `known` is the local-chain membership oracle
(`HasBlockAndState` in full mode, `HasHeader` otherwise). -/
def scanDown (known : Header → Bool) (fromN ceil height limit : Nat)
    (headers : List Header) : Nat → ScanOutcome
  | 0 => ScanOutcome.nofind
  | i + 1 =>
    let h := headers.getD i ⟨0, 0⟩
    if h.number < fromN ∨ ceil < h.number then
      scanDown known fromN ceil height limit headers i
    else if known h then
      if height < h.number ∧ i = limit - 1 then
        ScanOutcome.stalling
      else
        ScanOutcome.found h.number h.hash
    else
      scanDown known fromN ceil height limit headers i

/-- The whole linear-probe scan over a reply. -/
def ancestorScan (known : Header → Bool) (fromN ceil height limit : Nat)
    (headers : List Header) : ScanOutcome :=
  scanDown known fromN ceil height limit headers headers.length

/-! ## QoS estimator (part_000, lines 1418-1466) -/

/-- Confidence update on peer-registry growth. `peers` is the current
registry size, `conf` the stored confidence in millionths. Translated
from `qosReduceConfidence`. -/
def qosReduceConfidence (peers conf : Nat) : Nat :=
  if peers = 0 then
    conf
  else if peers = 1 then
    1000000
  else if qosConfidenceCap ≤ peers then
    conf
  else
    let reduced := conf * (peers - 1) / peers
    if reduced < rttMinConfidenceMillionths then
      rttMinConfidenceMillionths
    else
      reduced

/-- Target round-trip time for a request, `rttEstimate * 9 / 10`
(nanoseconds, truncating division as in Go). Translated from
`requestRTT`. -/
def requestRTT (rttEstimate : Nat) : Nat :=
  rttEstimate * 9 / 10

/-- Timeout allowance for a single request:
`ttlScaling * (rttEstimate / (confidence/1000000))`, capped at `ttlLimit`.
The Go code performs the division in `float64` and truncates the quotient
to an integer duration before scaling; this embedding computes the same
quotient with exact integer arithmetic. Translated from `requestTTL`. -/
def requestTTL (rttEstimate rttConfidence : Nat) : Nat :=
  let ttl := ttlScaling * (rttEstimate * 1000000 / rttConfidence)
  if ttlLimit < ttl then ttlLimit else ttl

/-! ## Peer known-hash caches (part_001, lines 388-410)

The known-block and known-transaction caches are hash sets.  `Add` is a
no-op when the hash is already present, `Pop` evicts one (arbitrary)
element; the embedding realises the set as a duplicate-free list whose
`Pop` removes the head. -/

/-- `set.Add`: insert a hash unless already present. -/
def setAdd (s : List Hash) (h : Hash) : List Hash :=
  if h ∈ s then s else h :: s

/-- The eviction loop `for s.Size() >= maxSize { s.Pop() }`. -/
def popLoop (maxSize : Nat) : List Hash → List Hash
  | [] => []
  | h :: t => if maxSize ≤ t.length + 1 then popLoop maxSize t else h :: t

/-- `Peer.KnownBlockAdd`: evict until below capacity, then insert. -/
def knownBlockAdd (knownBlocks : List Hash) (h : Hash) : List Hash :=
  setAdd (popLoop maxKnownBlocks knownBlocks) h

/-- `Peer.KnownTxsAdd`: evict until below capacity, then insert. -/
def knownTxsAdd (knownTxs : List Hash) (h : Hash) : List Hash :=
  setAdd (popLoop maxKnownTxs knownTxs) h

/-! ## Helper lemmas -/

/-- The eviction loop leaves the cache strictly below capacity. -/
theorem popLoop_length_lt (maxSize : Nat) (hm : 0 < maxSize) :
    ∀ s : List Hash, (popLoop maxSize s).length < maxSize := by
  intro s
  induction s with
  | nil => simpa [popLoop] using hm
  | cons h t ih =>
    by_cases hc : maxSize ≤ t.length + 1
    · simpa [popLoop, hc] using ih
    · simp only [popLoop, hc, if_neg]
      simpa using Nat.lt_of_not_le hc

/-- Inserting into the cache grows it by at most one element. -/
theorem setAdd_length_le (s : List Hash) (h : Hash) :
    (setAdd s h).length ≤ s.length + 1 := by
  by_cases hc : h ∈ s <;> simp [setAdd, hc]

/-- A single `KnownBlockAdd` call lands at or below capacity, whatever the
incoming cache was. -/
theorem knownBlockAdd_length_le (s : List Hash) (h : Hash) :
    (knownBlockAdd s h).length ≤ maxKnownBlocks := by
  have hpop := popLoop_length_lt maxKnownBlocks (by decide) s
  have hadd := setAdd_length_le (popLoop maxKnownBlocks s) h
  exact le_trans hadd (Nat.succ_le_of_lt hpop)

/-- A single `KnownTxsAdd` call lands at or below capacity, whatever the
incoming cache was. -/
theorem knownTxsAdd_length_le (s : List Hash) (h : Hash) :
    (knownTxsAdd s h).length ≤ maxKnownTxs := by
  have hpop := popLoop_length_lt maxKnownTxs (by decide) s
  have hadd := setAdd_length_le (popLoop maxKnownTxs s) h
  exact le_trans hadd (Nat.succ_le_of_lt hpop)

/-- A fold of cache insertions stays within a bound once each single
insertion does. -/
theorem foldl_add_length_le (f : List Hash → Hash → List Hash) (m : Nat)
    (hf : ∀ s h, (f s h).length ≤ m) :
    ∀ (calls : List Hash) (s : List Hash), s.length ≤ m →
      (calls.foldl f s).length ≤ m := by
  intro calls
  induction calls with
  | nil => intro s hs; simpa using hs
  | cons c cs ih =>
    intro s _
    simpa [List.foldl] using ih (f s c) (hf s c)

/-! ## Claim theorems -/

/-- Claim C9 (confirmed): `start` reports the master peer to the
`dropPeer` callback exactly for the errors Timeout, BadPeer, StallingPeer,
EmptyHeaderSet, PeersUnavailable, ProtocolVersionLow, InvalidAncestor and
InvalidChain; a nil result, Busy, and every other error of the taxonomy
leave the peer in place. -/
theorem start_drop_policy :
    startDropsPeer (some SyncError.timeout) = true
    ∧ startDropsPeer (some SyncError.badPeer) = true
    ∧ startDropsPeer (some SyncError.stallingPeer) = true
    ∧ startDropsPeer (some SyncError.emptyHeaderSet) = true
    ∧ startDropsPeer (some SyncError.peersUnavailable) = true
    ∧ startDropsPeer (some SyncError.proVLowerBase) = true
    ∧ startDropsPeer (some SyncError.invalidAncestor) = true
    ∧ startDropsPeer (some SyncError.invalidChain) = true
    ∧ startDropsPeer none = false
    ∧ startDropsPeer (some SyncError.busy) = false
    ∧ startDropsPeer (some SyncError.unknownPeer) = false
    ∧ startDropsPeer (some SyncError.noPeers) = false
    ∧ startDropsPeer (some SyncError.cancelBlockFetch) = false
    ∧ startDropsPeer (some SyncError.cancelHeaderFetch) = false
    ∧ startDropsPeer (some SyncError.cancelBodyFetch) = false
    ∧ startDropsPeer (some SyncError.cancelReceiptFetch) = false
    ∧ startDropsPeer (some SyncError.cancelStateFetch) = false
    ∧ startDropsPeer (some SyncError.cancelHeaderProcessing) = false
    ∧ startDropsPeer (some SyncError.cancelContentProcessing) = false
    ∧ startDropsPeer (some SyncError.noSyncActive) = false
    ∧ startDropsPeer (some SyncError.staleDelivery) = false := by
  decide

/-- Claim C3 (confirmed): a fast-mode `syn` degrades the session to full
sync exactly when the pivot failure counter has reached
`fsCriticalTrials`; below that the requested fast mode is kept. -/
theorem syn_mode_degradation (fails : Nat) :
    (fsCriticalTrials ≤ fails →
      synEffectiveMode SyncMode.fastSync fails = SyncMode.fullSync)
    ∧ (fails < fsCriticalTrials →
      synEffectiveMode SyncMode.fastSync fails = SyncMode.fastSync) := by
  constructor
  · intro hge
    simp [synEffectiveMode, hge]
  · intro hlt
    simp [synEffectiveMode, Nat.not_le_of_lt hlt]

/-- Claim C2, counterexample, refuting both parts of the claimed
invariant at concrete inputs. First, with no pivot lock, offset 0, peer
height `fsMinFullBlocks` and ancestor origin 0, pivot selection leaves
the pivot at 0 and the adjusted origin at 0, so `origin < pivot` fails.
Second, with a pivot lock at number 100 (from an earlier critical
section) and a peer now reporting height 64, the locked branch copies the
lock's number unconditionally, so `pivot ≤ height` fails. -/
theorem pivot_origin_invariant_counterexample :
    (¬ (adjustOrigin (selectPivot SyncMode.fastSync none 0 fsMinFullBlocks) 0
        < selectPivot SyncMode.fastSync none 0 fsMinFullBlocks))
    ∧ selectPivot SyncMode.fastSync (some ⟨100, 5⟩) 0 64 = 100
    ∧ ¬ (selectPivot SyncMode.fastSync (some ⟨100, 5⟩) 0 64 ≤ 64) := by
  decide

/-- Claim C2 (amended): after fast-mode pivot selection and origin
adjustment, `origin ≤ pivot` holds (strict inequality can fail, e.g. when
the pivot is 0); a freshly selected pivot (no pivot lock) also satisfies
`pivot ≤ height`; and whenever the pivot is below the ancestor origin the
origin is rewound to `pivot - 1`, or to 0 when the pivot is 0. -/
theorem pivot_origin_adjustment (lock : Option Header)
    (pivotOffset height origin : Nat) :
    adjustOrigin (selectPivot SyncMode.fastSync lock pivotOffset height) origin
      ≤ selectPivot SyncMode.fastSync lock pivotOffset height
    ∧ selectPivot SyncMode.fastSync none pivotOffset height ≤ height
    ∧ (∀ pivot, pivot < origin →
        adjustOrigin pivot origin = if 0 < pivot then pivot - 1 else 0) := by
  refine ⟨?_, ?_, ?_⟩
  · set pivot := selectPivot SyncMode.fastSync lock pivotOffset height with hp
    by_cases hlt : pivot < origin
    · by_cases hpos : 0 < pivot
      · simp only [adjustOrigin, if_pos hlt, if_pos hpos]
        exact Nat.sub_le pivot 1
      · simp only [adjustOrigin, if_pos hlt, if_neg hpos]
        exact Nat.zero_le pivot
    · simp only [adjustOrigin, if_neg hlt]
      exact Nat.le_of_not_lt hlt
  · by_cases hc : fsMinFullBlocks + pivotOffset < height
    · simp only [selectPivot, if_pos hc]
      exact le_trans (Nat.sub_le _ _) (Nat.sub_le _ _)
    · simp [selectPivot, hc]
  · intro pivot hlt
    simp [adjustOrigin, hlt]

/-- Claim C8, counterexample: with zero registered peers (the connectivity
race the code guards against) the confidence is left unchanged rather than
forced to full, refuting the claim's `n ≤ 1` clause. -/
theorem qos_confidence_counterexample :
    qosReduceConfidence 0 500000 = 500000
    ∧ qosReduceConfidence 0 500000 ≠ 1000000 := by
  decide

/-- Claim C8 (amended): `qosReduceConfidence` leaves the confidence
unchanged when the registry is empty, forces it to full (1,000,000)
exactly when one peer is registered, leaves it unchanged at or above
`qosConfidenceCap` peers, and otherwise multiplies it by `(n-1)/n`
clamping the result below at the `rttMinConfidence` floor. -/
theorem qos_confidence_update (peers conf : Nat) :
    qosReduceConfidence 0 conf = conf
    ∧ qosReduceConfidence 1 conf = 1000000
    ∧ (qosConfidenceCap ≤ peers → qosReduceConfidence peers conf = conf)
    ∧ (2 ≤ peers → peers < qosConfidenceCap →
        qosReduceConfidence peers conf =
          max (conf * (peers - 1) / peers) rttMinConfidenceMillionths) := by
  refine ⟨by simp [qosReduceConfidence], by simp [qosReduceConfidence], ?_, ?_⟩
  · intro hcap
    have h0 : peers ≠ 0 := by
      intro h; rw [h] at hcap; exact absurd hcap (by decide)
    have h1 : peers ≠ 1 := by
      intro h; rw [h] at hcap; exact absurd hcap (by decide)
    simp [qosReduceConfidence, h0, h1, hcap]
  · intro h2 hcap
    have h0 : peers ≠ 0 := by omega
    have h1 : peers ≠ 1 := by omega
    have hnc : ¬ qosConfidenceCap ≤ peers := Nat.not_le_of_lt hcap
    simp only [qosReduceConfidence, h0, h1, hnc, if_false, if_neg]
    by_cases hf : conf * (peers - 1) / peers < rttMinConfidenceMillionths
    · rw [if_pos hf]
      exact (Nat.max_eq_right (Nat.le_of_lt hf)).symm
    · rw [if_neg hf]
      exact (Nat.max_eq_left (Nat.le_of_not_lt hf)).symm

/-- Claim C7, counterexample: at an RTT estimate of 100 s with full
confidence (within the claim's stated quantification, which bounds only
the confidence), the target RTT is 90 s while the TTL is capped at the
60 s limit, so `request_rtt() ≤ request_ttl()` fails. -/
theorem request_timing_counterexample :
    ¬ (requestRTT 100000000000 ≤ requestTTL 100000000000 1000000) := by
  decide

/-- Claim C7 (amended): whenever the RTT estimate is within the
`rtt_max_estimate` bound the engine maintains (20 s, also its initial
value) and the confidence is positive and at most 1,000,000, the derived
timings satisfy `request_rtt() ≤ request_ttl() ≤ ttl_limit`. -/
theorem request_timing_ordering (rtt conf : Nat)
    (hrtt : rtt ≤ rttMaxEstimate) (hpos : 0 < conf)
    (hconf : conf ≤ 1000000) :
    requestRTT rtt ≤ requestTTL rtt conf
    ∧ requestTTL rtt conf ≤ ttlLimit := by
  have hr : requestRTT rtt ≤ rtt := by
    have h9 : rtt * 9 ≤ rtt * 10 := Nat.mul_le_mul_left rtt (by decide)
    have h10 : rtt * 9 / 10 ≤ rtt * 10 / 10 := Nat.div_le_div_right h9
    simpa [requestRTT, Nat.mul_div_cancel rtt (by decide : 0 < 10)] using h10
  have hq : rtt ≤ rtt * 1000000 / conf := by
    have hd : rtt * 1000000 / 1000000 ≤ rtt * 1000000 / conf :=
      Nat.div_le_div_left hconf hpos
    simpa [Nat.mul_div_cancel rtt (by decide : 0 < 1000000)] using hd
  by_cases hcap : ttlLimit < ttlScaling * (rtt * 1000000 / conf)
  · have httl : requestTTL rtt conf = ttlLimit := by
      simp [requestTTL, hcap]
    refine ⟨?_, by rw [httl]⟩
    rw [httl]
    calc requestRTT rtt ≤ rtt := hr
      _ ≤ rttMaxEstimate := hrtt
      _ ≤ ttlLimit := by decide
  · have httl : requestTTL rtt conf = ttlScaling * (rtt * 1000000 / conf) := by
      simp [requestTTL, hcap]
    refine ⟨?_, by rw [httl]; exact Nat.le_of_not_lt hcap⟩
    rw [httl]
    calc requestRTT rtt ≤ rtt := hr
      _ ≤ rtt * 1000000 / conf := hq
      _ ≤ ttlScaling * (rtt * 1000000 / conf) := by
          simpa using Nat.le_mul_of_pos_left (rtt * 1000000 / conf)
            (by decide : 0 < ttlScaling)

/-- Witness for the amended claim C7 at the maximal RTT estimate and half
confidence. -/
theorem request_timing_ordering_witness :
    requestRTT 20000000000 ≤ requestTTL 20000000000 500000
    ∧ requestTTL 20000000000 500000 ≤ ttlLimit :=
  request_timing_ordering 20000000000 500000 (by decide) (by decide) (by decide)

/-- Claim C1, counterexample: a registered peer reported by the expire
callback with failure count 1 (≤ 2) is dropped from the registry and is
not pushed to zero throughput, refuting the claim's direction of the
threshold. -/
theorem expire_policy_counterexample :
    applyExpire ["p"] [] [("p", 1)] = ([], [])
    ∧ ¬ ("p" ∈ (applyExpire ["p"] [] [("p", 1)]).1) := by
  constructor
  · simp [applyExpire]
  · simp [applyExpire]

/-- Claim C1 (amended): on each update pass of `fetchParts`, for every
registered peer the expire callback reports: a failure count above 2 keeps
the peer but records a zero-throughput idle reset, while a failure count
of at most 2 removes the peer from the registry (via the drop callback). -/
theorem expire_policy (reg zeroed : List PeerId) (pid : PeerId)
    (fails : Nat) (hin : pid ∈ reg) :
    (2 < fails →
      applyExpire reg zeroed [(pid, fails)] = (reg, zeroed ++ [pid]))
    ∧ (fails ≤ 2 →
      applyExpire reg zeroed [(pid, fails)] = (reg.erase pid, zeroed)) := by
  constructor
  · intro hgt
    simp [applyExpire, hin, hgt]
  · intro hle
    simp [applyExpire, hin, Nat.not_lt_of_le hle]

/-- Witness for the amended claim C1: a peer with 3 failures is kept and
zeroed; the unsatisfiable `3 ≤ 2` clause is vacuous. -/
theorem expire_policy_witness :
    (2 < 3 →
      applyExpire ["p"] [] [("p", 3)] = (["p"], ([] : List PeerId) ++ ["p"]))
    ∧ (3 ≤ 2 →
      applyExpire ["p"] [] [("p", 3)] = (List.erase ["p"] "p", [])) :=
  expire_policy ["p"] [] "p" 3 (by simp)

/-- Claim C10 (confirmed): a `KnownBlockAdd` call always leaves the
known-block cache within `maxKnownBlocks` hashes and a `KnownTxsAdd` call
always leaves the known-transaction cache within `maxKnownTxs` hashes —
each call first evicts until below capacity and then inserts — so every
sequence of calls starting from the empty caches of a fresh peer respects
both bounds throughout. -/
theorem known_caches_bounded :
    (∀ (s : List Hash) (h : Hash),
      (knownBlockAdd s h).length ≤ maxKnownBlocks)
    ∧ (∀ (s : List Hash) (h : Hash),
      (knownTxsAdd s h).length ≤ maxKnownTxs)
    ∧ (∀ s : List Hash, (popLoop maxKnownBlocks s).length < maxKnownBlocks)
    ∧ (∀ s : List Hash, (popLoop maxKnownTxs s).length < maxKnownTxs)
    ∧ (∀ calls : List Hash,
      (calls.foldl knownBlockAdd []).length ≤ maxKnownBlocks)
    ∧ (∀ calls : List Hash,
      (calls.foldl knownTxsAdd []).length ≤ maxKnownTxs) := by
  refine ⟨knownBlockAdd_length_le, knownTxsAdd_length_le,
    popLoop_length_lt maxKnownBlocks (by decide),
    popLoop_length_lt maxKnownTxs (by decide), ?_, ?_⟩
  · intro calls
    exact foldl_add_length_le knownBlockAdd maxKnownBlocks
      knownBlockAdd_length_le calls [] (by simp)
  · intro calls
    exact foldl_add_length_le knownTxsAdd maxKnownTxs
      knownTxsAdd_length_le calls [] (by simp)

/-- Claim C4 (confirmed): in fast mode with the pivot lock set, on a
chunk whose (contiguously numbered) block range contains the pivot, the
pivot cross-check of `processHeaders` fails with `errInvalidChain`
exactly when the chunk's header at the pivot number carries a hash
different from the locked pivot header's hash. -/
theorem pivot_lock_cross_check (lock hdr : Header) (pivot firstNum : Nat)
    (chunk : List Header)
    (hne : 0 < chunk.length)
    (hfirst : firstNum = (chunk.getD 0 ⟨0, 0⟩).number)
    (hhdr : hdr = chunk.getD (pivot - firstNum) ⟨0, 0⟩)
    (hcontig : ∀ i, i < chunk.length →
      (chunk.getD i ⟨0, 0⟩).number = firstNum + i)
    (hlo : firstNum ≤ pivot)
    (hhi : pivot ≤ (chunk.getD (chunk.length - 1) ⟨0, 0⟩).number) :
    (pivotLockCheckFails SyncMode.fastSync (some lock) pivot chunk = true
      ↔ hdr.hash ≠ lock.hash)
    ∧ hdr.number = pivot := by
  have hlast := hcontig (chunk.length - 1) (Nat.sub_lt hne (by decide))
  have hk : pivot - firstNum < chunk.length := by omega
  have hknum := hcontig (pivot - firstNum) hk
  have hnum : hdr.number = pivot := by
    rw [hhdr]
    omega
  refine ⟨?_, hnum⟩
  simp only [pivotLockCheckFails]
  rw [← hfirst, ← hhdr]
  rw [if_pos (show True ∧ firstNum ≤ pivot
      ∧ pivot ≤ (chunk.getD (chunk.length - 1) ⟨0, 0⟩).number
    from ⟨trivial, hlo, hhi⟩)]
  rw [decide_eq_true_eq]

/-- Witness for claim C4: a two-header chunk containing the pivot at
number 6, whose header hash 78 differs from the locked hash 99. -/
theorem pivot_lock_cross_check_witness :
    (pivotLockCheckFails SyncMode.fastSync (some ⟨6, 99⟩) 6 [⟨5, 77⟩, ⟨6, 78⟩] = true
      ↔ (⟨6, 78⟩ : Header).hash ≠ (⟨6, 99⟩ : Header).hash)
    ∧ (⟨6, 78⟩ : Header).number = 6 :=
  pivot_lock_cross_check ⟨6, 99⟩ ⟨6, 78⟩ 6 5 [⟨5, 77⟩, ⟨6, 78⟩]
    (by decide) (by decide) (by decide)
    (by intro i hi; simp at hi; interval_cases i <;> decide) (by decide) (by decide)

/-- Claim C5, counterexample: a run whose first chunk fills the rollback
list to exactly `fsHeaderSafetyNet` uncertain headers and whose second
chunk fails after partially applying one header leaves the list at
`fsHeaderSafetyNet + 1` entries — the partial-failure append is not
re-capped before the deferred rollback reads the list. -/
theorem rollback_cap_counterexample :
    fsHeaderSafetyNet <
      (rollbackRun []
        [(List.replicate fsHeaderSafetyNet ⟨0, 0⟩,
          List.replicate fsHeaderSafetyNet ⟨0, 0⟩, InsertRes.ok),
         ([⟨1, 1⟩], [], InsertRes.fail 1)]).length := by
  simp [rollbackRun, rollbackStep, capRollback]

/-- Claim C5 (amended): after every successfully inserted chunk the
rollback list is truncated to at most `fsHeaderSafetyNet` headers, keeping
a suffix (the most recent entries) of the appended list; after a failing
insert the partially applied prefix is appended without re-capping, so
from a capped list the length is bounded only by
`fsHeaderSafetyNet + chunk.length`. -/
theorem rollback_bookkeeping (rollback chunk unknown : List Header)
    (n : Nat) (hrb : rollback.length ≤ fsHeaderSafetyNet) :
    (rollbackStep rollback chunk unknown InsertRes.ok).1.length ≤ fsHeaderSafetyNet
    ∧ (rollbackStep rollback chunk unknown InsertRes.ok).1 <:+ rollback ++ unknown
    ∧ (rollbackStep rollback chunk unknown (InsertRes.fail n)).1.length
        ≤ fsHeaderSafetyNet + chunk.length := by
  refine ⟨?_, ?_, ?_⟩
  · simp only [rollbackStep, capRollback]
    by_cases hc : fsHeaderSafetyNet < (rollback ++ unknown).length
    · rw [if_pos hc]
      simp only [List.length_drop]
      omega
    · rw [if_neg hc]
      exact Nat.le_of_not_lt hc
  · simp only [rollbackStep, capRollback]
    by_cases hc : fsHeaderSafetyNet < (rollback ++ unknown).length
    · rw [if_pos hc]
      exact List.drop_suffix _ _
    · rw [if_neg hc]
  · simp only [rollbackStep]
    by_cases hn : 0 < n
    · rw [if_pos hn]
      simp only [List.length_append, List.length_take]
      omega
    · rw [if_neg hn]
      omega

/-- Witness for the amended claim C5 at an empty rollback list and a
one-header chunk whose insert fails before applying anything. -/
theorem rollback_bookkeeping_witness :
    (rollbackStep [] [⟨1, 1⟩] [] InsertRes.ok).1.length ≤ fsHeaderSafetyNet
    ∧ (rollbackStep [] [⟨1, 1⟩] [] InsertRes.ok).1 <:+ ([] : List Header) ++ []
    ∧ (rollbackStep [] [⟨1, 1⟩] [] (InsertRes.fail 0)).1.length
        ≤ fsHeaderSafetyNet + ([⟨1, 1⟩] : List Header).length :=
  rollback_bookkeeping [] [⟨1, 1⟩] [] 0 (by decide)

/-- Claim C6, counterexample: a two-header reply whose topmost header
(number 16) is known locally and exceeds the peer's reported height 5 is
accepted as a found ancestor, not flagged as stalling, because the known
header does not sit at reply index `limit - 1` (the reply is shorter than
`limit = 2 * MaxHeaderFetch / 16` entries). -/
theorem ancestor_stalling_counterexample :
    ancestorScan (fun _ => true) 0 100 5 (2 * MaxHeaderFetch / 16)
        [⟨0, 10⟩, ⟨16, 11⟩] = ScanOutcome.found 16 11
    ∧ ScanOutcome.found 16 11 ≠ ScanOutcome.stalling := by
  decide

/-- Claim C6 (amended): the linear probe of `findAncestor` returns
`errStallingPeer` when the reply's topmost header is within the requested
range, already known locally, has a number exceeding the peer's reported
height, and sits at reply index `limit - 1` — that is, the reply holds
exactly `limit` headers. -/
theorem ancestor_stalling_detection (known : Header → Bool)
    (fromN ceil height limit : Nat) (hs : List Header) (h : Header)
    (hlen : hs.length + 1 = limit)
    (hlo : fromN ≤ h.number) (hhi : h.number ≤ ceil)
    (hk : known h = true) (hh : height < h.number) :
    ancestorScan known fromN ceil height limit (hs ++ [h])
      = ScanOutcome.stalling := by
  have hlen2 : (hs ++ [h]).length = hs.length + 1 := by simp
  have hget : (hs ++ [h]).getD hs.length ⟨0, 0⟩ = h := by
    rw [List.getD_eq_getD_get?, List.get?_concat_length]
    rfl
  rw [ancestorScan, hlen2]
  simp only [scanDown, hget]
  have hnot : ¬ (h.number < fromN ∨ ceil < h.number) := by omega
  rw [if_neg hnot, hk]
  have hidx : height < h.number ∧ hs.length = limit - 1 := ⟨hh, by omega⟩
  simp only [if_pos hidx, if_true]

/-- Witness for the amended claim C6: a full-length reply (here
`limit = 2`) whose topmost header is known and above the reported
height. -/
theorem ancestor_stalling_detection_witness :
    ancestorScan (fun _ => true) 0 100 5 2 ([⟨0, 10⟩] ++ [⟨16, 11⟩])
      = ScanOutcome.stalling :=
  ancestor_stalling_detection (fun _ => true) 0 100 5 2 [⟨0, 10⟩] ⟨16, 11⟩
    (by decide) (by decide) (by decide) rfl (by decide)

end GoHpb
